import Mathlib

/-!
Verification development for the SVGFrames frame-by-frame animation editor
(`src/main.js`).  The timeline model (layers, frames, hold frames), the
undo/redo log and the render-frame resolution are embedded as executable
Lean definitions; the geometry engine (shift constraints, point admission,
tapered outlines) is embedded over the real numbers.

Conventions of the embedding:
* JavaScript arrays become `List`s; `arr[i]` becomes `List.get?`,
  `arr.splice(i, 0, x)` becomes `spliceInsert`, `arr.splice(i, 1)` becomes
  `List.eraseIdx`.
* Optional object fields (`frame.hold`, `frame.holdReference`, attribute
  strings that may be `null`) become `Option`s.
* The undo/redo stacks are lists with the most recent entry first: JS
  `push`/`pop` act on the head, the JS `shift` used by the 50-entry cap
  drops the last element, so push-then-cap is `List.take 50 (e :: stack)`.
* UI-only work (DOM updates, `console.log`, `saveToLocalStorage`) has no
  effect on the modelled state and is omitted; the `showConfirm` dialogs of
  `deleteFrame`/`deleteLayer` are modelled as confirmed, since the claims
  are about the performed mutation.
-/

namespace SVGF

/-- A committed stroke as stored in a frame (`stopDrawing` in `main.js`
builds exactly this record from the live SVG path's attributes:
`{ d, stroke, strokeWidth, fill, tool }`).  Attributes that can be absent
(`null` from `getAttribute`) are `Option String`. -/
structure PathData where
  d : String
  stroke : Option String
  strokeWidth : Option String
  fill : Option String
  tool : String
deriving DecidableEq, Repr

/-- A frame of a layer: its stroke list `paths` plus the optional hold
metadata (`frame.hold`, `frame.holdReference` in `main.js`). -/
structure Frame where
  paths : List PathData
  hold : Option Nat
  holdReference : Option Nat
deriving DecidableEq, Repr

/-- An empty frame, `{ paths: [] }` in `main.js`. -/
def emptyFrame : Frame := ⟨[], none, none⟩

/-- A layer (`main.js` layer objects); a missing `isBackground` field is
falsy in JS and is modelled as `false`. -/
structure Layer where
  id : String
  name : String
  visible : Bool
  isBackground : Bool
  frames : List Frame
deriving DecidableEq, Repr

/-- Onion-skin settings (`state.onionSkinSettings`). -/
structure OnionSkinSettings where
  framesBefore : Nat
  framesAfter : Nat
  beforeOpacity : ℚ
  afterOpacity : ℚ
  beforeColor : String
  afterColor : String
deriving DecidableEq, Repr

/-- An undo/redo snapshot (`saveStateForUndo` pushes exactly this). -/
structure UndoEntry where
  layerId : String
  frameIndex : Nat
  frameState : Frame
deriving DecidableEq, Repr

/-- The modelled part of the global `state` object of `main.js`. -/
structure AppState where
  layers : List Layer
  currentLayerId : String
  currentFrameIndex : Nat
  maxFrames : Nat
  layerIdCounter : Nat
  undoStack : List UndoEntry
  redoStack : List UndoEntry
  onionSkinEnabled : Bool
  onionSkinSettings : OnionSkinSettings
deriving DecidableEq, Repr

/-- `arr.splice(n, 0, a)` of a JS array: insert `a` before position `n`,
appending when `n` is past the end. -/
def spliceInsert (l : List α) (n : Nat) (a : α) : List α :=
  l.take n ++ a :: l.drop n

/-- `state.layers.find(l => l.id === id)`. -/
def findLayer (layers : List Layer) (id : String) : Option Layer :=
  layers.find? (fun M => M.id == id)

/-- In-place mutation of the layer object returned by
`state.layers.find(...)`: rewrite the first layer whose id matches. -/
def updateLayer (id : String) (f : Layer → Layer) : List Layer → List Layer
  | [] => []
  | L :: rest => if L.id == id then f L :: rest else L :: updateLayer id f rest

/-- `Math.max(...state.layers.map(l => l.frames.length), 1)`. -/
def computeMaxFrames (layers : List Layer) : Nat :=
  (layers.map (fun L => L.frames.length)).foldr max 1

/-- `updateMaxFrames()` (`main.js` line 2997). -/
def updateMaxFrames (s : AppState) : AppState :=
  { s with maxFrames := computeMaxFrames s.layers }

/-- `addFrame()` (`main.js` line 3888): insert an empty frame after the
current frame of the current layer, or append when the cursor is past the
layer's end; move the cursor; recompute `maxFrames`. -/
def addFrame (s : AppState) : AppState :=
  match findLayer s.layers s.currentLayerId with
  | none => s
  | some L =>
    let insertIndex := s.currentFrameIndex + 1
    if insertIndex ≤ L.frames.length then
      updateMaxFrames { s with
        layers := updateLayer s.currentLayerId
          (fun M => { M with frames := spliceInsert M.frames insertIndex emptyFrame }) s.layers,
        currentFrameIndex := insertIndex }
    else
      updateMaxFrames { s with
        layers := updateLayer s.currentLayerId
          (fun M => { M with frames := M.frames ++ [emptyFrame] }) s.layers,
        currentFrameIndex := L.frames.length }

/-- `duplicateFrame()` (`main.js` line 3915): insert, after the current
frame, a new frame whose only populated field is a deep copy of the source
frame's `paths`; move the cursor; recompute `maxFrames`. -/
def duplicateFrame (s : AppState) : AppState :=
  match findLayer s.layers s.currentLayerId with
  | none => s
  | some L =>
    match L.frames.get? s.currentFrameIndex with
    | none => s
    | some fr =>
      updateMaxFrames { s with
        layers := updateLayer s.currentLayerId
          (fun M =>
            { M with frames := spliceInsert M.frames (s.currentFrameIndex + 1) ⟨fr.paths, none, none⟩ })
          s.layers,
        currentFrameIndex := s.currentFrameIndex + 1 }

/-- `deleteFrame()` (`main.js` line 4003), with the confirmation dialog
accepted: refuse when the layer has a single frame or no frame at the
cursor; otherwise remove the frame, clamp the cursor, recompute
`maxFrames`. -/
def deleteFrame (s : AppState) : AppState :=
  match findLayer s.layers s.currentLayerId with
  | none => s
  | some L =>
    if L.frames.length = 1 then s
    else
      match L.frames.get? s.currentFrameIndex with
      | none => s
      | some _ =>
        let frames1 := L.frames.eraseIdx s.currentFrameIndex
        let cfi := if frames1.length ≤ s.currentFrameIndex then frames1.length - 1
                   else s.currentFrameIndex
        updateMaxFrames { s with
          layers := updateLayer s.currentLayerId
            (fun M => { M with frames := frames1 }) s.layers,
          currentFrameIndex := cfi }

/-- `addHoldFrame(frameIndex)` (`main.js` line 3935): refuse on a frame
that is itself a hold reference; else increment the source frame's hold
count (starting from 0 when the field is absent or falsy) and insert a
synthesized `{ paths: [], holdReference: frameIndex }` frame at
`frameIndex + hold`; recompute `maxFrames`. -/
def addHoldFrame (frameIndex : Nat) (s : AppState) : AppState :=
  match findLayer s.layers s.currentLayerId with
  | none => s
  | some L =>
    match L.frames.get? frameIndex with
    | none => s
    | some frame =>
      match frame.holdReference with
      | some _ => s
      | none =>
        let newHold := frame.hold.getD 0 + 1
        let frames1 := L.frames.set frameIndex { frame with hold := some newHold }
        let frames2 := spliceInsert frames1 (frameIndex + newHold) ⟨[], none, some frameIndex⟩
        updateMaxFrames { s with
          layers := updateLayer s.currentLayerId
            (fun M => { M with frames := frames2 }) s.layers }

/-- The scan of `removeHoldFrame`'s `for` loop
(`for (let i = frames.length - 1; i > frameIndex; i--)`): the counter `n`
is one past the next index to inspect, so `findLastRefAux frames src n`
returns the largest `j < n` with `src < j` and
`frames[j].holdReference === src`, if any. -/
def findLastRefAux (frames : List Frame) (src : Nat) : Nat → Option Nat
  | 0 => none
  | n + 1 =>
    if src < n ∧ (frames.get? n).bind Frame.holdReference = some src then some n
    else findLastRefAux frames src n

/-- `removeHoldFrame(frameIndex)` (`main.js` line 3966): refuse unless the
frame has a positive hold count; remove the last frame referencing it
(scanning from the end), decrement the count, dropping the field at zero;
recompute `maxFrames`.  When no referencing frame is found nothing is
changed. -/
def removeHoldFrame (frameIndex : Nat) (s : AppState) : AppState :=
  match findLayer s.layers s.currentLayerId with
  | none => s
  | some L =>
    match L.frames.get? frameIndex with
    | none => s
    | some frame =>
      match frame.hold with
      | none => s
      | some h =>
        if h = 0 then s
        else
          match findLastRefAux L.frames frameIndex L.frames.length with
          | none => s
          | some j =>
            let frames1 := L.frames.eraseIdx j
            let frames2 := frames1.set frameIndex
              { frame with hold := if h - 1 = 0 then none else some (h - 1) }
            updateMaxFrames { s with
              layers := updateLayer s.currentLayerId
                (fun M => { M with frames := frames2 }) s.layers }

/-- `addLayer()` (`main.js` line 2769): push a fresh single-frame layer and
select it.  Note: the source does not call `updateMaxFrames` here. -/
def addLayer (s : AppState) : AppState :=
  let c := s.layerIdCounter + 1
  let newLayer : Layer :=
    ⟨"layer-" ++ toString c, "Layer " ++ toString c, true, false, [emptyFrame]⟩
  { s with
    layerIdCounter := c,
    layers := s.layers ++ [newLayer],
    currentLayerId := "layer-" ++ toString c }

/-- `deleteLayer()` (`main.js` line 2819), confirmation accepted: refuse on
the only layer, else remove the current layer and select its predecessor
(or the new first layer).  When `findIndex` misses (`-1`), JS
`splice(-1, 1)` removes the last layer and `layers[Math.max(0, -2)]` selects
the first; both branches recompute `maxFrames`. -/
def deleteLayer (s : AppState) : AppState :=
  if s.layers.length = 1 then s
  else
    match s.layers.findIdx? (fun M => M.id == s.currentLayerId) with
    | some li =>
      let layers1 := s.layers.eraseIdx li
      let newId := ((layers1.get? (li - 1)).map Layer.id).getD s.currentLayerId
      updateMaxFrames { s with layers := layers1, currentLayerId := newId }
    | none =>
      let layers1 := s.layers.eraseIdx (s.layers.length - 1)
      let newId := ((layers1.get? 0).map Layer.id).getD s.currentLayerId
      updateMaxFrames { s with layers := layers1, currentLayerId := newId }

/-- The layer-extension step of `startDrawing` (`main.js` lines 3050-3065):
with playback stopped, when the current layer is visible and has no frame
at the draw index (frame 0 for background layers, the cursor otherwise),
push empty frames up to that index and recompute `maxFrames`. -/
def extendFramesForDrawing (s : AppState) : AppState :=
  match findLayer s.layers s.currentLayerId with
  | none => s
  | some L =>
    if L.visible = false then s
    else
      let dfi := if L.isBackground then 0 else s.currentFrameIndex
      match L.frames.get? dfi with
      | some _ => s
      | none =>
        updateMaxFrames { s with
          layers := updateLayer s.currentLayerId
            (fun M => { M with
              frames := M.frames ++ List.replicate (dfi + 1 - M.frames.length) emptyFrame })
            s.layers }

/-- `saveStateForUndo()` (`main.js` line 4323): snapshot the frame at the
cursor onto the undo stack, evicting the oldest entry past 50. -/
def saveStateForUndo (s : AppState) : AppState :=
  match findLayer s.layers s.currentLayerId with
  | none => s
  | some L =>
    match L.frames.get? s.currentFrameIndex with
    | none => s
    | some fr =>
      { s with undoStack :=
          (⟨s.currentLayerId, s.currentFrameIndex, fr⟩ :: s.undoStack).take 50 }

/-- A full pen-stroke commit: the state-relevant part of `startDrawing`
(guards, frame extension, undo snapshot) followed by the commit half of
`stopDrawing` (append the finished path record to the target frame, clear
the redo stack).  The pointer-sample bookkeeping in between does not touch
the modelled state. -/
def commitStroke (pd : PathData) (s : AppState) : AppState :=
  match findLayer s.layers s.currentLayerId with
  | none => s
  | some L0 =>
    if L0.visible = false then s
    else
      let s1 := saveStateForUndo (extendFramesForDrawing s)
      match findLayer s1.layers s1.currentLayerId with
      | none => s1
      | some L1 =>
        let sfi := if L1.isBackground then 0 else s1.currentFrameIndex
        match L1.frames.get? sfi with
        | none => s1
        | some fr =>
          { s1 with
            layers := updateLayer s1.currentLayerId
              (fun M => { M with frames := M.frames.set sfi { fr with paths := fr.paths ++ [pd] } })
              s1.layers,
            redoStack := [] }

/-- A sequence of stroke commits, oldest first. -/
def commitSeq (ps : List PathData) (s : AppState) : AppState :=
  ps.foldl (fun t q => commitStroke q t) s

/-- `undo()` (`main.js` line 4339): pop the undo stack; if the entry's
layer or frame no longer exists, stop (the entry stays discarded);
otherwise push the current contents of that frame onto the redo stack,
overwrite the frame with the snapshot and move the cursor there. -/
def undo (s : AppState) : AppState :=
  match s.undoStack with
  | [] => s
  | e :: rest =>
    match findLayer s.layers e.layerId with
    | none => { s with undoStack := rest }
    | some L =>
      match L.frames.get? e.frameIndex with
      | none => { s with undoStack := rest }
      | some cur =>
        { s with
          undoStack := rest,
          redoStack := ⟨e.layerId, e.frameIndex, cur⟩ :: s.redoStack,
          layers := updateLayer e.layerId
            (fun M => { M with frames := M.frames.set e.frameIndex e.frameState }) s.layers,
          currentLayerId := e.layerId,
          currentFrameIndex := e.frameIndex }

/-- `redo()` (`main.js` line 4366): pop the redo stack; if the entry's
coordinate still exists, snapshot the cursor frame onto the undo stack,
overwrite the entry's frame and move the cursor there. -/
def redo (s : AppState) : AppState :=
  match s.redoStack with
  | [] => s
  | e :: rest =>
    match findLayer s.layers e.layerId with
    | none => { s with redoStack := rest }
    | some L =>
      match L.frames.get? e.frameIndex with
      | none => { s with redoStack := rest }
      | some _ =>
        let s1 := saveStateForUndo { s with redoStack := rest }
        { s1 with
          layers := updateLayer e.layerId
            (fun M => { M with frames := M.frames.set e.frameIndex e.frameState }) s1.layers,
          currentLayerId := e.layerId,
          currentFrameIndex := e.frameIndex }

/-- The frame-selection step of `renderFrame` (`main.js` lines 3800-3815):
background layers always take frame 0; otherwise take the frame at the
playhead, following a `holdReference` one level to the referenced frame. -/
def resolveFrameToRender (layer : Layer) (currentFrameIndex : Nat) : Option Frame :=
  if layer.isBackground then layer.frames.get? 0
  else
    match layer.frames.get? currentFrameIndex with
    | none => none
    | some f =>
      match f.holdReference with
      | none => some f
      | some r => layer.frames.get? r

/-- The paths `renderFrame` draws for one layer: the resolved frame's
paths, or nothing when resolution finds no frame
(`if (frameToRender && frameToRender.paths)`). -/
def layerRenderPaths (layer : Layer) (currentFrameIndex : Nat) : List PathData :=
  match resolveFrameToRender layer currentFrameIndex with
  | some f => f.paths
  | none => []

/-- Concatenation of per-layer contributions, in layer order
(`state.layers.forEach(...)` appending to one group). -/
def concatMap (f : α → List β) : List α → List β
  | [] => []
  | a :: l => f a ++ concatMap f l

/-- The onion-skin recoloring of one stored path (`renderFrame`): a path
with a truthy non-`"none"` fill gets its fill tinted, otherwise its stroke
is tinted. -/
def recolorPath (tint : String) (pd : PathData) : PathData :=
  match pd.fill with
  | some f => if f ≠ "none" ∧ f ≠ "" then { pd with fill := some tint }
              else { pd with stroke := some tint }
  | none => { pd with stroke := some tint }

/-- The paths collected into one onion-skin ghost group at `frameIndex`
(`renderFrame`): background layers are skipped, hidden layers are skipped,
visible layers with a frame there contribute their recolored paths in
layer order. -/
def onionGroupPaths (layers : List Layer) (frameIndex : Nat) (tint : String) : List PathData :=
  concatMap (fun L =>
    if L.isBackground then []
    else if L.visible then
      match L.frames.get? frameIndex with
      | some f => f.paths.map (recolorPath tint)
      | none => []
    else []) layers

/-- One onion-skin ghost group: its opacity and its recolored paths. -/
structure GhostGroup where
  opacity : ℚ
  paths : List PathData
deriving DecidableEq, Repr

/-- The onion-skin ghost groups emitted by `renderFrame` (lines 3716-3789):
for each side, groups for offsets `1..framesBefore/After`, stopping at
frame 0 (before side) or `state.maxFrames` (after side), each with the
faded opacity and the tinted paths of that offset frame. -/
def ghostGroups (s : AppState) : List GhostGroup :=
  if s.onionSkinEnabled = false then []
  else
    let st := s.onionSkinSettings
    let befores := (List.range (min st.framesBefore s.currentFrameIndex)).map (fun k =>
      let i : Nat := k + 1
      { opacity := st.beforeOpacity / 100 * (1 - ((i : ℚ) - 1) / (st.framesBefore : ℚ) * (1/2)),
        paths := onionGroupPaths s.layers (s.currentFrameIndex - i) st.beforeColor : GhostGroup })
    let afters := (List.range (min st.framesAfter (s.maxFrames - s.currentFrameIndex - 1))).map (fun k =>
      let i : Nat := k + 1
      { opacity := st.afterOpacity / 100 * (1 - ((i : ℚ) - 1) / (st.framesAfter : ℚ) * (1/2)),
        paths := onionGroupPaths s.layers (s.currentFrameIndex + i) st.afterColor : GhostGroup })
    befores ++ afters

/-! ### Helper lemmas about the list primitives of the embedding -/

theorem get?_lt_length {l : List α} {n : Nat} {a : α} (h : l.get? n = some a) :
    n < l.length := by
  rcases List.get?_eq_some.mp h with ⟨h1, _⟩
  exact h1

theorem get?_set_self {l : List α} {n : Nat} (a : α) (h : n < l.length) :
    (l.set n a).get? n = some a := by
  rw [List.get?_set_eq]
  rcases List.get?_eq_some.mpr ⟨h, rfl⟩ with h2
  rw [h2]
  rfl

theorem set_get?_self {l : List α} {n : Nat} {a : α} (h : l.get? n = some a) :
    l.set n a = l := by
  induction l generalizing n with
  | nil => rfl
  | cons b l ih =>
    cases n with
    | zero =>
      simp only [List.get?] at h
      have hba : b = a := Option.some.inj h
      subst hba
      rfl
    | succ n =>
      simp only [List.get?] at h
      simp [List.set, ih h]

theorem length_spliceInsert (l : List α) (n : Nat) (a : α) (h : n ≤ l.length) :
    (spliceInsert l n a).length = l.length + 1 := by
  simp [spliceInsert]
  omega

theorem spliceInsert_eq_min (l : List α) (n : Nat) (a : α) :
    spliceInsert l n a = spliceInsert l (min n l.length) a := by
  rcases Nat.le_total n l.length with h | h
  · rw [Nat.min_eq_left h]
  · rw [Nat.min_eq_right h, spliceInsert, spliceInsert,
        List.take_of_length_le h, List.take_length,
        List.drop_eq_nil_of_le h, List.drop_length]

theorem get?_spliceInsert_lt (l : List α) (n m : Nat) (a : α) (hn : n ≤ l.length)
    (hm : m < n) : (spliceInsert l n a).get? m = l.get? m := by
  rw [spliceInsert, List.get?_append, List.get?_take hm]
  rw [List.length_take]
  omega

theorem get?_spliceInsert_self (l : List α) (n : Nat) (a : α) (hn : n ≤ l.length) :
    (spliceInsert l n a).get? n = some a := by
  have h1 : (l.take n).length ≤ n := by
    rw [List.length_take]
    omega
  rw [spliceInsert, List.get?_append_right h1, List.length_take, Nat.min_eq_left hn,
      Nat.sub_self]
  rfl

theorem get?_spliceInsert_gt (l : List α) (n m : Nat) (a : α) (hn : n ≤ l.length)
    (hm : n < m) : (spliceInsert l n a).get? m = l.get? (m - 1) := by
  have h1 : (l.take n).length ≤ m := by
    rw [List.length_take]
    omega
  rw [spliceInsert, List.get?_append_right h1, List.length_take, Nat.min_eq_left hn]
  rcases Nat.exists_eq_add_of_lt hm with ⟨k, rfl⟩
  have h2 : n + k + 1 - n = k + 1 := by omega
  rw [h2]
  show (l.drop n).get? k = l.get? (n + k + 1 - 1)
  rw [List.get?_drop]
  have h3 : n + k + 1 - 1 = n + k := by omega
  rw [h3]

theorem eraseIdx_append_cons (xs ys : List α) (a : α) :
    (xs ++ a :: ys).eraseIdx xs.length = xs ++ ys := by
  induction xs with
  | nil => rfl
  | cons x xs ih => simp [List.eraseIdx, ih]

theorem eraseIdx_spliceInsert (l : List α) (n : Nat) (a : α) (h : n ≤ l.length) :
    (spliceInsert l n a).eraseIdx n = l := by
  have hlen : (l.take n).length = n := by
    rw [List.length_take]
    omega
  calc (spliceInsert l n a).eraseIdx n
      = (l.take n ++ a :: l.drop n).eraseIdx (l.take n).length := by rw [spliceInsert, hlen]
    _ = l.take n ++ l.drop n := eraseIdx_append_cons _ _ _
    _ = l := List.take_append_drop n l

/-! ### Helper lemmas about `updateLayer` and `findLayer` -/

theorem findLayer_updateLayer_self {ls : List Layer} {id : String} {L : Layer}
    (f : Layer → Layer) (h : findLayer ls id = some L) (hid : (f L).id = L.id) :
    findLayer (updateLayer id f ls) id = some (f L) := by
  induction ls with
  | nil => simp [findLayer] at h
  | cons M rest ih =>
    by_cases hM : (M.id == id) = true
    · rw [findLayer, List.find?_cons, hM] at h
      rw [updateLayer, if_pos hM, findLayer, List.find?_cons]
      have hML : M = L := Option.some.inj h
      subst hML
      have : ((f M).id == id) = true := by
        rw [hid]
        exact hM
      rw [this]
    · rw [findLayer, List.find?_cons] at h
      rw [Bool.not_eq_true] at hM
      rw [hM] at h
      rw [updateLayer, if_neg (by simp [hM]), findLayer, List.find?_cons, hM]
      exact ih h

theorem updateLayer_eq_self {ls : List Layer} {id : String} {L : Layer}
    {f : Layer → Layer} (h : findLayer ls id = some L) (hL : f L = L) :
    updateLayer id f ls = ls := by
  induction ls with
  | nil => rfl
  | cons M rest ih =>
    by_cases hM : (M.id == id) = true
    · rw [findLayer, List.find?_cons, hM] at h
      have hML : M = L := Option.some.inj h
      subst hML
      rw [updateLayer, if_pos hM, hL]
    · rw [findLayer, List.find?_cons] at h
      rw [Bool.not_eq_true] at hM
      rw [hM] at h
      rw [updateLayer, if_neg (by simp [hM]), ih h]

theorem updateLayer_comp {id : String} (f g : Layer → Layer) (ls : List Layer)
    (hid : ∀ M, (f M).id = M.id) :
    updateLayer id g (updateLayer id f ls) = updateLayer id (fun M => g (f M)) ls := by
  induction ls with
  | nil => rfl
  | cons M rest ih =>
    by_cases hM : (M.id == id) = true
    · rw [updateLayer, if_pos hM, updateLayer, updateLayer, if_pos hM]
      have : ((f M).id == id) = true := by
        rw [hid]
        exact hM
      rw [if_pos this]
    · rw [updateLayer, if_neg hM, updateLayer, updateLayer, if_neg hM, if_neg hM, ih]

theorem updateLayer_congr {id : String} {f g : Layer → Layer} (ls : List Layer)
    (h : ∀ M, f M = g M) : updateLayer id f ls = updateLayer id g ls := by
  induction ls with
  | nil => rfl
  | cons M rest ih =>
    by_cases hM : (M.id == id) = true
    · rw [updateLayer, if_pos hM, updateLayer, if_pos hM, h]
    · rw [updateLayer, if_neg hM, updateLayer, if_neg hM, ih]

theorem get?_updateLayer_ne {ls : List Layer} {id : String} {k : Nat} {M : Layer}
    (f : Layer → Layer) (hk : ls.get? k = some M) (hne : M.id ≠ id) :
    (updateLayer id f ls).get? k = some M := by
  induction ls generalizing k with
  | nil => simp [List.get?] at hk
  | cons N rest ih =>
    cases k with
    | zero =>
      simp only [List.get?] at hk
      have hNM : N = M := Option.some.inj hk
      subst hNM
      rw [updateLayer, if_neg (by simp [hne])]
      rfl
    | succ k =>
      simp only [List.get?] at hk
      by_cases hN : (N.id == id) = true
      · rw [updateLayer, if_pos hN]
        exact hk
      · rw [updateLayer, if_neg hN]
        exact ih hk

/-! ### Helper lemmas about `computeMaxFrames` -/

theorem one_le_foldr_max (l : List Nat) : 1 ≤ l.foldr max 1 := by
  induction l with
  | nil => exact Nat.le_refl 1
  | cons a l ih => exact le_trans ih (Nat.le_max_right a _)

theorem le_foldr_max {l : List Nat} {x : Nat} (h : x ∈ l) : x ≤ l.foldr max 1 := by
  induction l with
  | nil => cases h
  | cons a l ih =>
    rcases List.mem_cons.mp h with rfl | h2
    · exact Nat.le_max_left _ _
    · exact le_trans (ih h2) (Nat.le_max_right _ _)

theorem foldr_max_attained (l : List Nat) : l.foldr max 1 = 1 ∨ l.foldr max 1 ∈ l := by
  induction l with
  | nil => exact Or.inl rfl
  | cons a l ih =>
    rcases Nat.le_total a (l.foldr max 1) with h | h
    · rw [List.foldr_cons, Nat.max_eq_right h]
      rcases ih with h2 | h2
      · exact Or.inl h2
      · exact Or.inr (List.mem_cons_of_mem _ h2)
    · rw [List.foldr_cons, Nat.max_eq_left h]
      exact Or.inr (List.mem_cons_self _ _)

/-- Resolution of the `removeHoldFrame` scan: when index `p` (below `n`)
satisfies the loop's test and every index strictly between `p` and `n`
does not, the downward scan stops at `p`. -/
theorem findLastRefAux_eq_some (frames : List Frame) (src p : Nat) (n : Nat)
    (hpn : p < n)
    (hp : src < p ∧ (frames.get? p).bind Frame.holdReference = some src)
    (habove : ∀ j, p < j → j < n →
      ¬(src < j ∧ (frames.get? j).bind Frame.holdReference = some src)) :
    findLastRefAux frames src n = some p := by
  induction n with
  | zero => omega
  | succ n ih =>
    by_cases hn : n = p
    · subst hn
      rw [findLastRefAux, if_pos hp]
    · have hpn2 : p < n := by omega
      rw [findLastRefAux, if_neg (habove n (by omega) (by omega))]
      exact ih hpn2 (fun j h1 h2 => habove j h1 (by omega))

/-- A `concatMap` over a list equals the `concatMap` over its filtration
when every filtered-out element contributes nothing. -/
theorem concatMap_filter_of_nil (f : α → List β) (p : α → Bool) (l : List α)
    (h : ∀ x, p x = false → f x = []) :
    concatMap f l = concatMap f (l.filter p) := by
  induction l with
  | nil => rfl
  | cons a l ih =>
    by_cases ha : p a = true
    · rw [concatMap, List.filter_cons_of_pos ha, concatMap, ih]
    · rw [Bool.not_eq_true] at ha
      rw [concatMap, h a ha, List.filter_cons_of_neg (by simp [ha]), List.nil_append, ih]

/-- After `updateMaxFrames`, the cached `maxFrames` is the recomputed
maximum by construction. -/
theorem maxFrames_updateMaxFrames (t : AppState) :
    (updateMaxFrames t).maxFrames = computeMaxFrames (updateMaxFrames t).layers := rfl

/-- Appending a single-frame layer never changes the computed maximum,
because the maximum is already at least 1. -/
theorem computeMaxFrames_append_single (ls : List Layer) (L : Layer)
    (hL : L.frames.length = 1) :
    computeMaxFrames (ls ++ [L]) = computeMaxFrames ls := by
  rw [computeMaxFrames, computeMaxFrames, List.map_append, List.foldr_append]
  simp [hL]

/-! ## C9: a stale undo entry is discarded without touching anything else -/

/-- C9: if the undo stack is non-empty but its top entry references a layer
id that no longer exists, or a frame index with no frame in that layer,
then `undo()` removes that entry from the undo stack and leaves the
layers, the cursor and the redo stack unchanged — nothing is restored and
nothing is pushed to redo. -/
theorem C9_stale_undo_entry (s : AppState) (e : UndoEntry) (rest : List UndoEntry)
    (hs : s.undoStack = e :: rest)
    (hbad : findLayer s.layers e.layerId = none ∨
      ∃ L, findLayer s.layers e.layerId = some L ∧ L.frames.get? e.frameIndex = none) :
    undo s = { s with undoStack := rest } := by
  rcases hbad with h | ⟨L, hL, hf⟩
  · unfold undo
    rw [hs]
    simp only [h]
  · unfold undo
    rw [hs]
    simp only [hL, hf]

/-- C9 witness: a concrete state whose top undo entry names a missing
layer id; `undo` only pops the entry. -/
def c9State : AppState :=
  { layers := [⟨"layer-1", "Layer 1", true, false, [emptyFrame]⟩],
    currentLayerId := "layer-1", currentFrameIndex := 0, maxFrames := 1,
    layerIdCounter := 1,
    undoStack := [⟨"layer-99", 0, emptyFrame⟩, ⟨"layer-1", 0, emptyFrame⟩],
    redoStack := [],
    onionSkinEnabled := false,
    onionSkinSettings := ⟨1, 1, 30, 30, "#ff6b6b", "#4dabf7"⟩ }

/-- Witness for C9 at `c9State`. -/
theorem C9_stale_undo_entry_witness :
    undo c9State = { c9State with undoStack := [⟨"layer-1", 0, emptyFrame⟩] } :=
  C9_stale_undo_entry c9State ⟨"layer-99", 0, emptyFrame⟩ [⟨"layer-1", 0, emptyFrame⟩]
    rfl (Or.inl (by decide))

/-! ## C10: duplicateFrame copies only the paths, leaving everything else -/

/-- C10: for every state whose current layer and current frame exist,
`duplicateFrame` inserts at `currentFrameIndex + 1` a frame whose only
populated field is a copy of the source frame's `paths` — the source's
`hold` and `holdReference` metadata are not copied — while the source
frame, every other frame of the layer, and every layer with a different id
are left unchanged. -/
theorem C10_duplicate_frame (s : AppState) (L : Layer) (fr : Frame)
    (hL : findLayer s.layers s.currentLayerId = some L)
    (hf : L.frames.get? s.currentFrameIndex = some fr) :
    ∃ L1, findLayer (duplicateFrame s).layers s.currentLayerId = some L1 ∧
      L1.frames.length = L.frames.length + 1 ∧
      L1.frames.get? (s.currentFrameIndex + 1) = some ⟨fr.paths, none, none⟩ ∧
      (∀ j, j ≤ s.currentFrameIndex → L1.frames.get? j = L.frames.get? j) ∧
      (∀ j, s.currentFrameIndex + 1 < j → L1.frames.get? j = L.frames.get? (j - 1)) ∧
      (∀ k M, s.layers.get? k = some M → M.id ≠ s.currentLayerId →
        (duplicateFrame s).layers.get? k = some M) := by
  have hlt : s.currentFrameIndex < L.frames.length := get?_lt_length hf
  have hle : s.currentFrameIndex + 1 ≤ L.frames.length := hlt
  have hlayers : (duplicateFrame s).layers =
      updateLayer s.currentLayerId
        (fun M =>
          { M with frames := spliceInsert M.frames (s.currentFrameIndex + 1) ⟨fr.paths, none, none⟩ })
        s.layers := by
    unfold duplicateFrame
    simp only [hL, hf]
    rfl
  refine ⟨{ L with frames := spliceInsert L.frames (s.currentFrameIndex + 1) ⟨fr.paths, none, none⟩ },
    ?_, ?_, ?_, ?_, ?_, ?_⟩
  · rw [hlayers]
    exact findLayer_updateLayer_self _ hL rfl
  · exact length_spliceInsert _ _ _ hle
  · exact get?_spliceInsert_self _ _ _ hle
  · intro j hj
    exact get?_spliceInsert_lt _ _ _ _ hle (by omega)
  · intro j hj
    exact get?_spliceInsert_gt _ _ _ _ hle hj
  · intro k M hk hne
    rw [hlayers]
    exact get?_updateLayer_ne _ hk hne

/-- C10 witness inputs: one layer with a held source frame at the cursor. -/
def c10Frame : Frame := ⟨[⟨"M 0 0", some "#000", some "3", some "none", "pen"⟩], some 1, none⟩

/-- C10 witness state. -/
def c10State : AppState :=
  { layers := [⟨"layer-1", "Layer 1", true, false, [c10Frame, ⟨[], none, some 0⟩]⟩],
    currentLayerId := "layer-1", currentFrameIndex := 0, maxFrames := 2,
    layerIdCounter := 1, undoStack := [], redoStack := [],
    onionSkinEnabled := false,
    onionSkinSettings := ⟨1, 1, 30, 30, "#ff6b6b", "#4dabf7"⟩ }

/-- Witness for C10 at `c10State`: the duplicate at index 1 carries the
source's paths but no hold metadata. -/
theorem C10_duplicate_frame_witness :
    ∃ L1, findLayer (duplicateFrame c10State).layers c10State.currentLayerId = some L1 ∧
      L1.frames.length = 2 + 1 ∧
      L1.frames.get? (c10State.currentFrameIndex + 1) = some ⟨c10Frame.paths, none, none⟩ ∧
      (∀ j, j ≤ c10State.currentFrameIndex →
        L1.frames.get? j = [c10Frame, ⟨[], none, some 0⟩].get? j) ∧
      (∀ j, c10State.currentFrameIndex + 1 < j →
        L1.frames.get? j = [c10Frame, ⟨[], none, some 0⟩].get? (j - 1)) ∧
      (∀ k M, c10State.layers.get? k = some M → M.id ≠ c10State.currentLayerId →
        (duplicateFrame c10State).layers.get? k = some M) :=
  C10_duplicate_frame c10State ⟨"layer-1", "Layer 1", true, false, [c10Frame, ⟨[], none, some 0⟩]⟩
    c10Frame rfl rfl

/-! ## C3: the cached maxFrames never drifts from the recomputed maximum -/

/-- C3: starting from any state whose cached `maxFrames` agrees with the
recomputed maximum, every frame-count-changing mutation — `addFrame`,
`duplicateFrame`, `deleteFrame`, `addHoldFrame`, `removeHoldFrame`,
`deleteLayer`, `addLayer` (which does not even call `updateMaxFrames`) and
the drawing-triggered frame extension — re-establishes
`maxFrames = max(layer.frames.length over all layers, 1)`; and
`computeMaxFrames` is exactly that maximum with a minimum of 1. -/
theorem C3_maxFrames_invariant (s : AppState)
    (h : s.maxFrames = computeMaxFrames s.layers) :
    (addFrame s).maxFrames = computeMaxFrames (addFrame s).layers ∧
    (duplicateFrame s).maxFrames = computeMaxFrames (duplicateFrame s).layers ∧
    (deleteFrame s).maxFrames = computeMaxFrames (deleteFrame s).layers ∧
    (∀ i, (addHoldFrame i s).maxFrames = computeMaxFrames (addHoldFrame i s).layers) ∧
    (∀ i, (removeHoldFrame i s).maxFrames = computeMaxFrames (removeHoldFrame i s).layers) ∧
    (deleteLayer s).maxFrames = computeMaxFrames (deleteLayer s).layers ∧
    (addLayer s).maxFrames = computeMaxFrames (addLayer s).layers ∧
    (extendFramesForDrawing s).maxFrames = computeMaxFrames (extendFramesForDrawing s).layers ∧
    (∀ ls : List Layer, 1 ≤ computeMaxFrames ls ∧
      (∀ L ∈ ls, L.frames.length ≤ computeMaxFrames ls) ∧
      (computeMaxFrames ls = 1 ∨ ∃ L ∈ ls, L.frames.length = computeMaxFrames ls)) := by
  refine ⟨?_, ?_, ?_, ?_, ?_, ?_, ?_, ?_, ?_⟩
  · unfold addFrame
    split
    · exact h
    · dsimp only
      split
      · exact maxFrames_updateMaxFrames _
      · exact maxFrames_updateMaxFrames _
  · unfold duplicateFrame
    split
    · exact h
    · split
      · exact h
      · exact maxFrames_updateMaxFrames _
  · unfold deleteFrame
    split
    · exact h
    · split
      · exact h
      · split
        · exact h
        · exact maxFrames_updateMaxFrames _
  · intro i
    unfold addHoldFrame
    split
    · exact h
    · split
      · exact h
      · split
        · exact h
        · exact maxFrames_updateMaxFrames _
  · intro i
    unfold removeHoldFrame
    split
    · exact h
    · split
      · exact h
      · split
        · exact h
        · split
          · exact h
          · split
            · exact h
            · exact maxFrames_updateMaxFrames _
  · unfold deleteLayer
    split
    · exact h
    · split
      · exact maxFrames_updateMaxFrames _
      · exact maxFrames_updateMaxFrames _
  · unfold addLayer
    dsimp only
    have hone := computeMaxFrames_append_single s.layers
      ⟨"layer-" ++ toString (s.layerIdCounter + 1), "Layer " ++ toString (s.layerIdCounter + 1),
        true, false, [emptyFrame]⟩ rfl
    rw [hone]
    exact h
  · unfold extendFramesForDrawing
    split
    · exact h
    · split
      · exact h
      · dsimp only
        split
        · exact h
        · exact maxFrames_updateMaxFrames _
  · intro ls
    refine ⟨one_le_foldr_max _, ?_, ?_⟩
    · intro L hL
      exact le_foldr_max (List.mem_map_of_mem _ hL)
    · rcases foldr_max_attained (ls.map (fun L => L.frames.length)) with h1 | h1
      · exact Or.inl h1
      · rcases List.mem_map.mp h1 with ⟨L, hL, heq⟩
        exact Or.inr ⟨L, hL, heq⟩

/-- C3 witness state: two layers of different lengths with a correct
cached maximum. -/
def c3State : AppState :=
  { layers := [⟨"layer-1", "Layer 1", true, false, [emptyFrame, emptyFrame, emptyFrame]⟩,
               ⟨"layer-2", "Layer 2", true, false, [emptyFrame]⟩],
    currentLayerId := "layer-1", currentFrameIndex := 0, maxFrames := 3,
    layerIdCounter := 2, undoStack := [], redoStack := [],
    onionSkinEnabled := false,
    onionSkinSettings := ⟨1, 1, 30, 30, "#ff6b6b", "#4dabf7"⟩ }

/-- Witness for C3 at `c3State`. -/
theorem C3_maxFrames_invariant_witness :
    (addFrame c3State).maxFrames = computeMaxFrames (addFrame c3State).layers ∧
    (duplicateFrame c3State).maxFrames = computeMaxFrames (duplicateFrame c3State).layers ∧
    (deleteFrame c3State).maxFrames = computeMaxFrames (deleteFrame c3State).layers ∧
    (∀ i, (addHoldFrame i c3State).maxFrames = computeMaxFrames (addHoldFrame i c3State).layers) ∧
    (∀ i, (removeHoldFrame i c3State).maxFrames =
      computeMaxFrames (removeHoldFrame i c3State).layers) ∧
    (deleteLayer c3State).maxFrames = computeMaxFrames (deleteLayer c3State).layers ∧
    (addLayer c3State).maxFrames = computeMaxFrames (addLayer c3State).layers ∧
    (extendFramesForDrawing c3State).maxFrames =
      computeMaxFrames (extendFramesForDrawing c3State).layers ∧
    (∀ ls : List Layer, 1 ≤ computeMaxFrames ls ∧
      (∀ L ∈ ls, L.frames.length ≤ computeMaxFrames ls) ∧
      (computeMaxFrames ls = 1 ∨ ∃ L ∈ ls, L.frames.length = computeMaxFrames ls)) :=
  C3_maxFrames_invariant c3State (by decide)

/-! ## C1: addHoldFrame then deleteFrame at the held index -/

/-- The C1 scenario layer: three plain frames with the given path lists. -/
def c1Layer (p0 p1 p2 : List PathData) : Layer :=
  ⟨"layer-1", "Layer 1", true, false,
    [⟨p0, none, none⟩, ⟨p1, none, none⟩, ⟨p2, none, none⟩]⟩

/-- The C1 scenario state: one three-frame layer, cursor at frame 0. -/
def c1State (p0 p1 p2 : List PathData) : AppState :=
  { layers := [c1Layer p0 p1 p2],
    currentLayerId := "layer-1", currentFrameIndex := 0, maxFrames := 3,
    layerIdCounter := 1, undoStack := [], redoStack := [],
    onionSkinEnabled := false,
    onionSkinSettings := ⟨1, 1, 30, 30, "#ff6b6b", "#4dabf7"⟩ }

/-- C1 counterexample: in the claim's scenario (3 frames, `addHoldFrame(0)`
once, then `deleteFrame` at index 0), the synthesized held frame survives
at index 0 with `holdReference` still equal to `some 0` — the deleted
index.  The reference is neither removed nor redirected, refuting the
claim's third conjunct. -/
theorem C1_counterexample :
    ((deleteFrame (addHoldFrame 0 (c1State [] [] []))).layers.get? 0).bind
      (fun L => L.frames.get? 0) = some ⟨[], none, some 0⟩ := by decide

/-- C1 amended: in the same scenario, `addHoldFrame(0)` grows the layer to
4 frames and `deleteFrame` at index 0 shrinks it back by exactly 1 (to 3);
the synthesized frame keeps `holdReference = 0`, now a self-reference to
the deleted index; `renderFrame`'s resolution still succeeds — the held
frame resolves to itself and renders its own empty path list. -/
theorem C1_amended (p0 p1 p2 : List PathData) :
    ((addHoldFrame 0 (c1State p0 p1 p2)).layers.get? 0).map (fun L => L.frames.length)
      = some 4 ∧
    ((deleteFrame (addHoldFrame 0 (c1State p0 p1 p2))).layers.get? 0).map
      (fun L => L.frames.length) = some 3 ∧
    ((deleteFrame (addHoldFrame 0 (c1State p0 p1 p2))).layers.get? 0).bind
      (fun L => L.frames.get? 0) = some ⟨[], none, some 0⟩ ∧
    ((deleteFrame (addHoldFrame 0 (c1State p0 p1 p2))).layers.get? 0).map
      (fun L => layerRenderPaths L 0) = some [] :=
  ⟨rfl, rfl, rfl, rfl⟩

/-! ## C5: background layers render frame 0 and are excluded from onion skin -/

/-- C5: a layer with `isBackground` set has its frame 0 selected by
`renderFrame`'s frame resolution for every playhead value, and background
layers contribute no paths to any onion-skin ghost group: the ghost groups
of any state equal those of the state with all background layers removed. -/
theorem C5_background_rendering (L : Layer) (s : AppState) (cfi : Nat) :
    (L.isBackground = true → resolveFrameToRender L cfi = L.frames.get? 0) ∧
    ghostGroups s = ghostGroups { s with layers := s.layers.filter (fun M => !M.isBackground) } := by
  constructor
  · intro hbg
    unfold resolveFrameToRender
    rw [if_pos hbg]
  · have honion : ∀ fi tint, onionGroupPaths s.layers fi tint =
        onionGroupPaths (s.layers.filter (fun M => !M.isBackground)) fi tint := by
      intro fi tint
      unfold onionGroupPaths
      apply concatMap_filter_of_nil
      intro M hM
      have hbg : M.isBackground = true := by
        simpa using hM
      rw [if_pos hbg]
    unfold ghostGroups
    dsimp only
    by_cases he : s.onionSkinEnabled = false
    · rw [if_pos he, if_pos he]
    · rw [if_neg he, if_neg he]
      simp only [honion]

/-- C5 witness state: onion skin enabled, one background layer with
content and one normal layer, playhead at 1. -/
def c5Layer : Layer :=
  ⟨"layer-1", "BG", true, true,
    [⟨[⟨"M 0 0 L 5 5", some "#000", some "3", some "none", "pen"⟩], none, none⟩, emptyFrame]⟩

/-- C5 witness state. -/
def c5State : AppState :=
  { layers := [c5Layer, ⟨"layer-2", "Layer 2", true, false,
      [⟨[⟨"M 1 1", some "#111", some "2", some "none", "pen"⟩], none, none⟩, emptyFrame]⟩],
    currentLayerId := "layer-2", currentFrameIndex := 1, maxFrames := 2,
    layerIdCounter := 2, undoStack := [], redoStack := [],
    onionSkinEnabled := true,
    onionSkinSettings := ⟨1, 1, 30, 30, "#ff6b6b", "#4dabf7"⟩ }

/-- Witness for C5: the background layer resolves to frame 0 at playhead 5
(beyond its length), and the ghost groups of `c5State` ignore the
background layer. -/
theorem C5_background_rendering_witness :
    resolveFrameToRender c5Layer 5 = c5Layer.frames.get? 0 ∧
    ghostGroups c5State =
      ghostGroups { c5State with layers := c5State.layers.filter (fun M => !M.isBackground) } :=
  ⟨(C5_background_rendering c5Layer c5State 5).1 rfl,
    (C5_background_rendering c5Layer c5State 5).2⟩

/-! ## C2: addHoldFrame followed by removeHoldFrame on the same frame -/

/-- The frames-array effect of a successful `addHoldFrame i`: bump the
source frame's hold count and splice the synthesized reference frame in at
`i + newHold`. -/
def heldInsert (fs : List Frame) (i : Nat) (frame : Frame) : List Frame :=
  spliceInsert (fs.set i { frame with hold := some (frame.hold.getD 0 + 1) })
    (i + (frame.hold.getD 0 + 1)) ⟨[], none, some i⟩

/-- The frames-array effect of a successful `removeHoldFrame i` that found
the referencing frame at index `j`: erase it and decrement the hold count
of the source frame, dropping the field at zero. -/
def heldRemove (fs : List Frame) (i : Nat) (frame : Frame) (h j : Nat) : List Frame :=
  (fs.eraseIdx j).set i { frame with hold := if h - 1 = 0 then none else some (h - 1) }

/-- Characterization of a successful `addHoldFrame`. -/
theorem addHoldFrame_eq (s : AppState) (L : Layer) (ps : List PathData) (hd : Option Nat)
    (i : Nat)
    (hL : findLayer s.layers s.currentLayerId = some L)
    (hf : L.frames.get? i = some ⟨ps, hd, none⟩) :
    addHoldFrame i s = updateMaxFrames { s with layers := updateLayer s.currentLayerId (fun M => { M with frames := heldInsert L.frames i ⟨ps, hd, none⟩ }) s.layers } := by
  unfold addHoldFrame
  simp only [hL, hf]
  rfl

/-- Characterization of a successful `removeHoldFrame`. -/
theorem removeHoldFrame_eq (s : AppState) (L : Layer) (frame : Frame) (i h j : Nat)
    (hL : findLayer s.layers s.currentLayerId = some L)
    (hf : L.frames.get? i = some frame)
    (hh : frame.hold = some h)
    (hne : ¬h = 0)
    (hfind : findLastRefAux L.frames i L.frames.length = some j) :
    removeHoldFrame i s = updateMaxFrames { s with layers := updateLayer s.currentLayerId (fun M => { M with frames := heldRemove L.frames i frame h j }) s.layers } := by
  unfold removeHoldFrame
  simp only [hL, hf, hh, hne, if_false, hfind]
  rfl

/-- C2 counterexample inputs: a layer, reachable through the editor's own
operations (`addHoldFrame 1` on a fresh three-frame layer, then `addFrame`
with the cursor at 0), in which frame 1 is plain but a later frame still
carries `holdReference = 1`: frames are
`[F, F, F1(hold=1), H(ref 1), F]`, with the plain frame to hold at index 1. -/
def c2xLayer : Layer :=
  ⟨"layer-1", "Layer 1", true, false,
    [emptyFrame, emptyFrame, ⟨[], some 1, none⟩, ⟨[], none, some 1⟩, emptyFrame]⟩

/-- C2 counterexample state. -/
def c2xState : AppState :=
  { layers := [c2xLayer],
    currentLayerId := "layer-1", currentFrameIndex := 1, maxFrames := 5,
    layerIdCounter := 1, undoStack := [], redoStack := [],
    onionSkinEnabled := false,
    onionSkinSettings := ⟨1, 1, 30, 30, "#ff6b6b", "#4dabf7"⟩ }

/-- C2 counterexample: frame 1 of `c2xState` is a valid non-hold-reference
frame, yet `addHoldFrame 1` followed by `removeHoldFrame 1` does not
restore the frames array: the removal scan walks from the end and deletes
the stale frame referencing index 1 instead of the newly synthesized one. -/
theorem C2_counterexample :
    (c2xLayer.frames.get? 1).map Frame.holdReference = some none ∧
    (removeHoldFrame 1 (addHoldFrame 1 c2xState)).layers ≠ c2xState.layers := by decide

/-- C2 amended: `addHoldFrame i` followed by `removeHoldFrame i` restores
the layer list exactly, provided the layer's hold metadata is consistent
at `i`: the frame at `i` exists, is not itself a hold reference, its hold
field is absent or positive, and no frame beyond its hold block (index
`> i + holdCount`) references `i`.  (Such stale references can survive
earlier insertions/deletions; on them the scan removes the wrong frame,
as the counterexample records.) -/
theorem C2_amended (s : AppState) (L : Layer) (f : Frame) (i : Nat)
    (hL : findLayer s.layers s.currentLayerId = some L)
    (hf : L.frames.get? i = some f)
    (href : f.holdReference = none)
    (hh0 : f.hold ≠ some 0)
    (hclean : ∀ j, i + f.hold.getD 0 < j →
      (L.frames.get? j).bind Frame.holdReference ≠ some i) :
    (removeHoldFrame i (addHoldFrame i s)).layers = s.layers := by
  obtain ⟨ps, hd, hr⟩ := f
  obtain rfl : hr = none := href
  dsimp only at hh0 hclean
  have hlen : i < L.frames.length := get?_lt_length hf
  have hmin : heldInsert L.frames i ⟨ps, hd, none⟩
      = spliceInsert (L.frames.set i (⟨ps, some (hd.getD 0 + 1), none⟩ : Frame))
        (min (i + (hd.getD 0 + 1)) L.frames.length) ⟨[], none, some i⟩ := by
    rw [heldInsert, spliceInsert_eq_min]
    simp only [List.length_set]
  have hpm_le : min (i + (hd.getD 0 + 1)) L.frames.length
      ≤ (L.frames.set i (⟨ps, some (hd.getD 0 + 1), none⟩ : Frame)).length := by
    rw [List.length_set]
    exact Nat.min_le_right _ _
  have hip : i < min (i + (hd.getD 0 + 1)) L.frames.length :=
    lt_min (by omega) hlen
  have hg_i : (heldInsert L.frames i ⟨ps, hd, none⟩).get? i
      = some (⟨ps, some (hd.getD 0 + 1), none⟩ : Frame) := by
    rw [hmin, get?_spliceInsert_lt _ _ _ _ hpm_le hip]
    exact get?_set_self _ hlen
  have hg_p : (heldInsert L.frames i ⟨ps, hd, none⟩).get? (min (i + (hd.getD 0 + 1)) L.frames.length)
      = some ⟨[], none, some i⟩ := by
    rw [hmin]
    exact get?_spliceInsert_self _ _ _ hpm_le
  have hlen2 : (heldInsert L.frames i ⟨ps, hd, none⟩).length = L.frames.length + 1 := by
    rw [hmin, length_spliceInsert _ _ _ hpm_le, List.length_set]
  have habove : ∀ j, min (i + (hd.getD 0 + 1)) L.frames.length < j →
      j < L.frames.length + 1 →
      ¬(i < j ∧ ((heldInsert L.frames i ⟨ps, hd, none⟩).get? j).bind Frame.holdReference = some i) := by
    intro j h1 h2 hcontra
    obtain ⟨h3, h4⟩ := hcontra
    rw [hmin, get?_spliceInsert_gt _ _ _ _ hpm_le h1] at h4
    rw [List.get?_set_ne _ _ (by omega)] at h4
    rcases Nat.le_total (i + (hd.getD 0 + 1)) L.frames.length with hc | hc
    · rw [Nat.min_eq_left hc] at h1
      exact hclean (j - 1) (by omega) h4
    · rw [Nat.min_eq_right hc] at h1
      rw [List.get?_eq_none.mpr (by omega)] at h4
      exact Option.noConfusion h4
  have hfindlast : findLastRefAux (heldInsert L.frames i ⟨ps, hd, none⟩) i (heldInsert L.frames i ⟨ps, hd, none⟩).length
      = some (min (i + (hd.getD 0 + 1)) L.frames.length) := by
    rw [hlen2]
    apply findLastRefAux_eq_some
    · have := Nat.min_le_right (i + (hd.getD 0 + 1)) L.frames.length
      omega
    · refine ⟨hip, ?_⟩
      rw [hg_p]
      rfl
    · exact habove
  have haddeq := addHoldFrame_eq s L ps hd i hL hf
  have hlayers1 : (addHoldFrame i s).layers
      = updateLayer s.currentLayerId (fun M => { M with frames := heldInsert L.frames i ⟨ps, hd, none⟩ }) s.layers := by
    rw [haddeq]
    rfl
  have hcur1 : (addHoldFrame i s).currentLayerId = s.currentLayerId := by
    rw [haddeq]
    rfl
  have hfind1 : findLayer (addHoldFrame i s).layers (addHoldFrame i s).currentLayerId
      = some { L with frames := heldInsert L.frames i ⟨ps, hd, none⟩ } := by
    rw [hcur1, hlayers1]
    exact findLayer_updateLayer_self _ hL rfl
  have hremeq := removeHoldFrame_eq (addHoldFrame i s)
    { L with frames := heldInsert L.frames i ⟨ps, hd, none⟩ }
    (⟨ps, some (hd.getD 0 + 1), none⟩ : Frame) i (hd.getD 0 + 1)
    (min (i + (hd.getD 0 + 1)) L.frames.length)
    hfind1 hg_i rfl (by omega) hfindlast
  have hfold : ((⟨ps, if (hd.getD 0 + 1) - 1 = 0 then none else some ((hd.getD 0 + 1) - 1), none⟩ : Frame) : Frame) = (⟨ps, hd, none⟩ : Frame) := by
    cases hfh : hd with
    | none => simp [hfh]
    | some k =>
      have hk : k ≠ 0 := fun hz => hh0 (by rw [hfh, hz])
      simp [hfh, hk]
  have herase : (heldInsert L.frames i ⟨ps, hd, none⟩).eraseIdx (min (i + (hd.getD 0 + 1)) L.frames.length)
      = L.frames.set i (⟨ps, some (hd.getD 0 + 1), none⟩ : Frame) := by
    rw [hmin]
    exact eraseIdx_spliceInsert _ _ _ hpm_le
  have hframes_final : heldRemove (heldInsert L.frames i ⟨ps, hd, none⟩) i
      (⟨ps, some (hd.getD 0 + 1), none⟩ : Frame) (hd.getD 0 + 1)
      (min (i + (hd.getD 0 + 1)) L.frames.length) = L.frames := by
    unfold heldRemove
    rw [herase, List.set_set]
    show L.frames.set i ((⟨ps, if (hd.getD 0 + 1) - 1 = 0 then none else some ((hd.getD 0 + 1) - 1), none⟩ : Frame)) = L.frames
    rw [hfold]
    exact set_get?_self hf
  rw [hremeq]
  show updateLayer (addHoldFrame i s).currentLayerId _ (addHoldFrame i s).layers = s.layers
  rw [hcur1, hlayers1]
  simp only [hframes_final]
  rw [updateLayer_comp (fun M => { M with frames := heldInsert L.frames i ⟨ps, hd, none⟩ }) (fun M => { M with frames := L.frames }) s.layers (fun M => rfl)]
  exact updateLayer_eq_self hL rfl

/-- C2 witness layer: a single plain frame. -/
def c2wState : AppState :=
  { layers := [⟨"layer-1", "Layer 1", true, false, [emptyFrame]⟩],
    currentLayerId := "layer-1", currentFrameIndex := 0, maxFrames := 1,
    layerIdCounter := 1, undoStack := [], redoStack := [],
    onionSkinEnabled := false,
    onionSkinSettings := ⟨1, 1, 30, 30, "#ff6b6b", "#4dabf7"⟩ }

/-- Witness for the amended C2 at `c2wState`, frame 0. -/
theorem C2_amended_witness :
    (removeHoldFrame 0 (addHoldFrame 0 c2wState)).layers = c2wState.layers :=
  C2_amended c2wState ⟨"layer-1", "Layer 1", true, false, [emptyFrame]⟩ emptyFrame 0
    rfl rfl rfl (by decide)
    (by
      intro j hj
      match j, hj with
      | j + 1, _ =>
        show (([emptyFrame] : List Frame).get? (j + 1)).bind Frame.holdReference ≠ some 0
        simp [List.get?])


/-! ## C4: stroke commit, undo, redo round trip -/

/-- `(List.replicate n a).get? m` hits `a` whenever `m < n`. -/
theorem get?_replicate_of_lt (a : α) {n m : Nat} (h : m < n) :
    (List.replicate n a).get? m = some a := by
  induction n generalizing m with
  | zero => omega
  | succ n ih =>
    cases m with
    | zero => rfl
    | succ m => exact ih (by omega)

/-- `saveStateForUndo` touches only the undo stack. -/
theorem saveStateForUndo_fields (t : AppState) :
    (saveStateForUndo t).layers = t.layers ∧
    (saveStateForUndo t).currentLayerId = t.currentLayerId ∧
    (saveStateForUndo t).currentFrameIndex = t.currentFrameIndex ∧
    (saveStateForUndo t).redoStack = t.redoStack := by
  unfold saveStateForUndo
  split
  · exact ⟨rfl, rfl, rfl, rfl⟩
  · split
    · exact ⟨rfl, rfl, rfl, rfl⟩
    · exact ⟨rfl, rfl, rfl, rfl⟩

/-- The drawing-triggered frame extension never moves the cursor or the
undo/redo stacks. -/
theorem extendFramesForDrawing_fields (s : AppState) :
    (extendFramesForDrawing s).currentLayerId = s.currentLayerId ∧
    (extendFramesForDrawing s).currentFrameIndex = s.currentFrameIndex ∧
    (extendFramesForDrawing s).redoStack = s.redoStack := by
  unfold extendFramesForDrawing
  split
  · exact ⟨rfl, rfl, rfl⟩
  · split
    · exact ⟨rfl, rfl, rfl⟩
    · dsimp only
      split
      · exact ⟨rfl, rfl, rfl⟩
      · exact ⟨rfl, rfl, rfl⟩

/-- After the drawing-triggered extension, the current layer is found,
still visible, with the same background flag, and it has a frame at the
draw index. -/
theorem extendFramesForDrawing_target (s : AppState) (L0 : Layer)
    (hL : findLayer s.layers s.currentLayerId = some L0)
    (hv : L0.visible = true) :
    ∃ L1, findLayer (extendFramesForDrawing s).layers s.currentLayerId = some L1 ∧
      L1.visible = true ∧ L1.isBackground = L0.isBackground ∧
      ∃ fr, L1.frames.get? (if L0.isBackground then 0 else s.currentFrameIndex) = some fr := by
  unfold extendFramesForDrawing
  simp only [hL]
  rw [if_neg (show ¬(L0.visible = false) by simp [hv])]
  cases hget : L0.frames.get? (if L0.isBackground then 0 else s.currentFrameIndex) with
  | some fr => exact ⟨L0, hL, hv, rfl, fr, hget⟩
  | none =>
    refine ⟨{ L0 with frames := L0.frames ++ List.replicate ((if L0.isBackground then 0 else s.currentFrameIndex) + 1 - L0.frames.length) emptyFrame }, ?_, hv, rfl, emptyFrame, ?_⟩
    · show findLayer (updateLayer s.currentLayerId _ s.layers) s.currentLayerId = _
      exact findLayer_updateLayer_self _ hL rfl
    · have hlen : L0.frames.length ≤ (if L0.isBackground then 0 else s.currentFrameIndex) :=
        List.get?_eq_none.mp hget
      show (L0.frames ++ List.replicate _ emptyFrame).get? _ = some emptyFrame
      rw [List.get?_append_right hlen]
      exact get?_replicate_of_lt _ (by omega)

/-- When the current layer exists and is visible, `commitStroke` really
commits: in particular it clears the redo stack. -/
theorem commitStroke_redo_empty (pd : PathData) (s : AppState) (L0 : Layer)
    (hL : findLayer s.layers s.currentLayerId = some L0)
    (hv : L0.visible = true) :
    (commitStroke pd s).redoStack = [] := by
  obtain ⟨L1, hfind1, hv1, hbg1, fr, hget1⟩ := extendFramesForDrawing_target s L0 hL hv
  obtain ⟨hecur, hecfi, _⟩ := extendFramesForDrawing_fields s
  obtain ⟨hsl, hscur, hscfi, _⟩ := saveStateForUndo_fields (extendFramesForDrawing s)
  unfold commitStroke
  simp only [hL]
  rw [if_neg (show ¬(L0.visible = false) by simp [hv])]
  have hfind2 : findLayer (saveStateForUndo (extendFramesForDrawing s)).layers
      (saveStateForUndo (extendFramesForDrawing s)).currentLayerId = some L1 := by
    rw [hsl, hscur, hecur]
    exact hfind1
  simp only [hfind2]
  have hget2 : L1.frames.get?
      (if L1.isBackground then 0
        else (saveStateForUndo (extendFramesForDrawing s)).currentFrameIndex) = some fr := by
    rw [hscfi, hecfi, hbg1]
    exact hget1
  simp only [hget2]

/-- The undo/redo round trip restores the layers whenever the redo stack
starts empty (which every real commit guarantees): an empty or stale undo
stack makes both operations (after the discarding pop) no-ops on the
layers, and a successful undo records exactly the overwritten frame,
which the following redo writes back. -/
theorem undo_redo_layers (s : AppState) (hr : s.redoStack = []) :
    (redo (undo s)).layers = s.layers := by
  cases hs : s.undoStack with
  | nil =>
    have h1 : undo s = s := by
      unfold undo
      rw [hs]
    rw [h1]
    unfold redo
    rw [hr]
  | cons e rest =>
    cases hfind : findLayer s.layers e.layerId with
    | none =>
      have h1 : undo s = { s with undoStack := rest } := by
        unfold undo
        rw [hs]
        simp only [hfind]
      rw [h1]
      unfold redo
      show (match s.redoStack with | [] => _ | _ :: _ => _ : AppState).layers = s.layers
      rw [hr]
    | some L =>
      cases hget : L.frames.get? e.frameIndex with
      | none =>
        have h1 : undo s = { s with undoStack := rest } := by
          unfold undo
          rw [hs]
          simp only [hfind, hget]
        rw [h1]
        unfold redo
        show (match s.redoStack with | [] => _ | _ :: _ => _ : AppState).layers = s.layers
        rw [hr]
      | some cur =>
        have h1 : undo s = { s with
            undoStack := rest,
            redoStack := ⟨e.layerId, e.frameIndex, cur⟩ :: s.redoStack,
            layers := updateLayer e.layerId (fun M => { M with frames := M.frames.set e.frameIndex e.frameState }) s.layers,
            currentLayerId := e.layerId,
            currentFrameIndex := e.frameIndex } := by
          unfold undo
          rw [hs]
          simp only [hfind, hget]
        rw [h1, hr]
        unfold redo
        dsimp only
        have hfind2 : findLayer (updateLayer e.layerId (fun M => { M with frames := M.frames.set e.frameIndex e.frameState }) s.layers) e.layerId = some { L with frames := L.frames.set e.frameIndex e.frameState } :=
          findLayer_updateLayer_self _ hfind rfl
        simp only [hfind2]
        have hget2 : (L.frames.set e.frameIndex e.frameState).get? e.frameIndex = some e.frameState :=
          get?_set_self _ (get?_lt_length hget)
        simp only [hget2]
        rw [saveStateForUndo_fields _ |>.1]
        rw [updateLayer_comp (fun M => { M with frames := M.frames.set e.frameIndex e.frameState }) (fun M => { M with frames := M.frames.set e.frameIndex cur }) s.layers (fun M => rfl)]
        rw [updateLayer_congr s.layers (fun M => by rw [List.set_set])]
        exact updateLayer_eq_self hfind (by rw [set_get?_self hget])

/-- C4: after any sequence of stroke commits followed by one more commit
on a state whose current layer exists and is visible, the commit clears
the redo stack, and `undo()` followed by `redo()` reproduces the layers
(hence every frame's contents) exactly as they were right after the
commit.  The 50-entry undo cap is part of `saveStateForUndo` and does not
affect the round trip. -/
theorem C4_commit_undo_redo (s0 : AppState) (ps : List PathData) (pd : PathData) (L0 : Layer)
    (hL : findLayer (commitSeq ps s0).layers (commitSeq ps s0).currentLayerId = some L0)
    (hv : L0.visible = true) :
    (redo (undo (commitStroke pd (commitSeq ps s0)))).layers
      = (commitStroke pd (commitSeq ps s0)).layers ∧
    (commitStroke pd (commitSeq ps s0)).redoStack = [] := by
  have hre := commitStroke_redo_empty pd (commitSeq ps s0) L0 hL hv
  exact ⟨undo_redo_layers _ hre, hre⟩

/-- C4 witness state: one visible single-frame layer. -/
def c4State : AppState :=
  { layers := [⟨"layer-1", "Layer 1", true, false, [emptyFrame]⟩],
    currentLayerId := "layer-1", currentFrameIndex := 0, maxFrames := 1,
    layerIdCounter := 1, undoStack := [], redoStack := [],
    onionSkinEnabled := false,
    onionSkinSettings := ⟨1, 1, 30, 30, "#ff6b6b", "#4dabf7"⟩ }

/-- C4 witness path. -/
def c4Path : PathData := ⟨"M 0 0 L 2 2", some "#000", some "3", some "none", "pen"⟩

/-- Witness for C4: one prior commit, then a second commit, undo, redo. -/
theorem C4_commit_undo_redo_witness :
    (redo (undo (commitStroke c4Path (commitSeq [c4Path] c4State)))).layers
      = (commitStroke c4Path (commitSeq [c4Path] c4State)).layers ∧
    (commitStroke c4Path (commitSeq [c4Path] c4State)).redoStack = [] :=
  C4_commit_undo_redo c4State [c4Path] c4Path
    ⟨"layer-1", "Layer 1", true, false, [⟨[c4Path], none, none⟩]⟩ (by decide) rfl

/-! ## Geometry engine (over the real numbers) -/

/-- A canvas-space point (`getSvgPoint` result, `{x, y}`). -/
structure Pt where
  x : ℝ
  y : ℝ

/-- The Euclidean distance computed by `draw()`:
`Math.sqrt(Math.pow(point.x - lastPoint.x, 2) + Math.pow(point.y - lastPoint.y, 2))`. -/
noncomputable def jsDist (p q : Pt) : ℝ :=
  Real.sqrt ((q.x - p.x) ^ 2 + (q.y - p.y) ^ 2)

/-- `Math.atan2(y, x)`: the argument of the point `(x, y)`. -/
noncomputable def jsAtan2 (y x : ℝ) : ℝ := Complex.arg ⟨x, y⟩

/-- `Math.round`: round half toward positive infinity. -/
noncomputable def jsRound (u : ℝ) : ℤ := ⌊u + 1 / 2⌋

/-- `applyShiftConstraint(startPoint, currentPoint)` (`main.js` lines
3002-3043); `forceCircle` is `state.altPressed`.  Circle intent (very
square bounding box of substantial size, or the force-circle modifier)
snaps to a square bounding box of side `max(|dx|, |dy|)`; otherwise the
endpoint angle is snapped to the nearest multiple of 45 degrees at the
same distance.  (In JS, `0/0` is `NaN` and `NaN > 0.85` is false; in the
embedding `0/0 = 0`, false as well.) -/
noncomputable def applyShiftConstraint (forceCircle : Bool) (startPoint currentPoint : Pt) : Pt :=
  let dx := currentPoint.x - startPoint.x
  let dy := currentPoint.y - startPoint.y
  let distance := Real.sqrt (dx * dx + dy * dy)
  let angle := jsAtan2 dy dx
  let width := |dx|
  let height := |dy|
  let aspectRatio := min width height / max width height
  if (0.85 < aspectRatio ∧ (50 < width ∧ 50 < height)) ∨ forceCircle = true then
    let size := max width height
    ⟨startPoint.x + (if 0 < dx then size else -size),
     startPoint.y + (if 0 < dy then size else -size)⟩
  else
    let snapAngle := (jsRound (angle / (Real.pi / 4)) : ℝ) * (Real.pi / 4)
    ⟨startPoint.x + distance * Real.cos snapAngle,
     startPoint.y + distance * Real.sin snapAngle⟩

/-- The pen branch of `draw()` (`main.js` lines 3132-3156): decide whether
the new (already constraint-resolved) sample is admitted and which points
feed path generation.  `none` models the early `return` that skips the
sample; `some (newCurrentPoints, pointsToUse)` gives the updated working
list and the list handed to path generation. -/
noncomputable def drawPenStep (smoothing : ℝ) (constrained : Bool) (startPoint point : Pt)
    (currentPoints : List Pt) : Option (List Pt × List Pt) :=
  match constrained, currentPoints.getLast? with
  | false, some lastP =>
    if jsDist lastP point < smoothing then none
    else some (currentPoints ++ [point], currentPoints ++ [point])
  | false, none => some (currentPoints ++ [point], currentPoints ++ [point])
  | true, _ => some (currentPoints, [startPoint, point])

/-- `calculateTaperedWidth(progress, baseWidth, taperAmount)` (`main.js`
lines 3250-3265). -/
noncomputable def calculateTaperedWidth (progress baseWidth taperAmount : ℝ) : ℝ :=
  if taperAmount = 0 then baseWidth
  else
    let curve := Real.sin (progress * Real.pi)
    let minWidth := baseWidth * (1 - taperAmount * 0.7)
    max (minWidth + (baseWidth - minWidth) * curve) 0.5

/-- `getTangent(p1, p2)` (`main.js` lines 3270-3281). -/
noncomputable def getTangent (p1 p2 : Pt) : Pt :=
  let dx := p2.x - p1.x
  let dy := p2.y - p1.y
  let length := Real.sqrt (dx * dx + dy * dy)
  if length = 0 then ⟨1, 0⟩ else ⟨dx / length, dy / length⟩

/-- The tangent choice of `createTaperedPath`'s loop: direction to the
next point at the start, from the previous point at the end, averaged
(previous to next) in the middle. -/
noncomputable def tangentAt (points : List Pt) (i : Nat) : Pt :=
  if i = 0 then getTangent (points.getD 0 ⟨0, 0⟩) (points.getD 1 ⟨0, 0⟩)
  else if i = points.length - 1 then
    getTangent (points.getD (i - 1) ⟨0, 0⟩) (points.getD i ⟨0, 0⟩)
  else getTangent (points.getD (i - 1) ⟨0, 0⟩) (points.getD (i + 1) ⟨0, 0⟩)

/-- The half-width at index `i` (`width / 2` with
`progress = i / (points.length - 1)`). -/
noncomputable def taperHalfWidth (points : List Pt) (baseWidth taperAmount : ℝ) (i : Nat) : ℝ :=
  calculateTaperedWidth ((i : ℝ) / ((points.length : ℝ) - 1)) baseWidth taperAmount / 2

/-- The `leftSide` polyline of `createTaperedPath`: each point offset by
`+ perpendicular * halfWidth`, where the perpendicular is the tangent
rotated 90 degrees (`(-t.y, t.x)`). -/
noncomputable def leftSidePoints (points : List Pt) (baseWidth taperAmount : ℝ) : List Pt :=
  (List.range points.length).map (fun i =>
    ⟨(points.getD i ⟨0, 0⟩).x + -(tangentAt points i).y * taperHalfWidth points baseWidth taperAmount i,
     (points.getD i ⟨0, 0⟩).y + (tangentAt points i).x * taperHalfWidth points baseWidth taperAmount i⟩)

/-- The `rightSide` polyline of `createTaperedPath`: each point offset by
`- perpendicular * halfWidth`. -/
noncomputable def rightSidePoints (points : List Pt) (baseWidth taperAmount : ℝ) : List Pt :=
  (List.range points.length).map (fun i =>
    ⟨(points.getD i ⟨0, 0⟩).x - -(tangentAt points i).y * taperHalfWidth points baseWidth taperAmount i,
     (points.getD i ⟨0, 0⟩).y - (tangentAt points i).x * taperHalfWidth points baseWidth taperAmount i⟩)

/-- A command of the generated SVG path string: `M`, `L` or `Z`. -/
inductive PathCmd where
  | moveTo (p : Pt)
  | lineTo (p : Pt)
  | close

/-- `createTaperedPath(points, baseWidth, taperAmount)` (`main.js` lines
3291-3350), with the emitted path string structured as a command list:
with fewer than 2 points a degenerate `M`; otherwise `M` to the first left
point, `L` along the left side, `L` along the reversed right side, `Z`. -/
noncomputable def createTaperedPath (points : List Pt) (baseWidth taperAmount : ℝ) : List PathCmd :=
  if points.length < 2 then [PathCmd.moveTo (points.getD 0 ⟨0, 0⟩)]
  else
    PathCmd.moveTo ((leftSidePoints points baseWidth taperAmount).getD 0 ⟨0, 0⟩)
      :: ((leftSidePoints points baseWidth taperAmount).drop 1).map PathCmd.lineTo
      ++ ((rightSidePoints points baseWidth taperAmount).reverse.map PathCmd.lineTo)
      ++ [PathCmd.close]

/-! ## C7: the point-admission filter and constrained two-point strokes -/

/-- C7 counterexample: with smoothing 5, last admitted point `(0,0)` and
new sample `(3,4)`, the distance equals the threshold exactly (5), which
does **not** strictly exceed it — yet `draw()` admits and appends the
sample (the code only skips when `distance < smoothing`).  This refutes
"appended only if the distance strictly exceeds the smoothing
parameter". -/
theorem C7_counterexample :
    drawPenStep 5 false ⟨0, 0⟩ ⟨3, 4⟩ [⟨0, 0⟩]
      = some ([⟨0, 0⟩, ⟨3, 4⟩], [⟨0, 0⟩, ⟨3, 4⟩]) ∧
    ¬(5 < jsDist (⟨0, 0⟩ : Pt) ⟨3, 4⟩) := by
  have h5 : jsDist (⟨0, 0⟩ : Pt) ⟨3, 4⟩ = 5 := by
    unfold jsDist
    rw [show ((3:ℝ) - 0) ^ 2 + ((4:ℝ) - 0) ^ 2 = 5 ^ 2 by norm_num]
    exact Real.sqrt_sq (by norm_num)
  constructor
  · unfold drawPenStep
    show (if jsDist (⟨0, 0⟩ : Pt) ⟨3, 4⟩ < 5 then none else _) = _
    rw [h5, if_neg (lt_irrefl 5)]
    rfl
  · rw [h5]
    exact lt_irrefl 5

/-- C7 amended: in unconstrained pen drawing a new raw sample is appended
exactly when its Euclidean distance to the last admitted point is **at
least** the smoothing parameter (the code skips only when
`distance < smoothing`, so a sample at exactly the threshold is
admitted); when constrained mode is active the filter is skipped and
exactly two points — the start point and the resolved current point — are
used for path generation. -/
theorem C7_amended (smoothing : ℝ) (startPoint point lastP : Pt) (currentPoints : List Pt)
    (hlast : currentPoints.getLast? = some lastP) :
    (drawPenStep smoothing false startPoint point currentPoints = none
      ↔ jsDist lastP point < smoothing) ∧
    (smoothing ≤ jsDist lastP point →
      drawPenStep smoothing false startPoint point currentPoints
        = some (currentPoints ++ [point], currentPoints ++ [point])) ∧
    (∀ cps : List Pt, drawPenStep smoothing true startPoint point cps
      = some (cps, [startPoint, point])) := by
  refine ⟨?_, ?_, ?_⟩
  · unfold drawPenStep
    simp only [hlast]
    by_cases h : jsDist lastP point < smoothing
    · simp [h]
    · simp [h]
  · intro h
    unfold drawPenStep
    simp only [hlast]
    rw [if_neg (not_lt.mpr h)]
  · intro cps
    unfold drawPenStep
    cases cps.getLast? <;> rfl

/-- Witness for the amended C7: smoothing 5, last point `(0,0)`, sample
`(6,8)` at distance 10. -/
theorem C7_amended_witness :
    (drawPenStep 5 false ⟨0, 0⟩ ⟨6, 8⟩ [⟨0, 0⟩] = none ↔ jsDist (⟨0, 0⟩ : Pt) ⟨6, 8⟩ < 5) ∧
    ((5:ℝ) ≤ jsDist (⟨0, 0⟩ : Pt) ⟨6, 8⟩ →
      drawPenStep 5 false ⟨0, 0⟩ ⟨6, 8⟩ [⟨0, 0⟩]
        = some ([⟨0, 0⟩] ++ [⟨6, 8⟩], [⟨0, 0⟩] ++ [⟨6, 8⟩])) ∧
    (∀ cps : List Pt, drawPenStep 5 true ⟨0, 0⟩ ⟨6, 8⟩ cps
      = some (cps, [⟨0, 0⟩, ⟨6, 8⟩])) :=
  C7_amended 5 ⟨0, 0⟩ ⟨6, 8⟩ ⟨0, 0⟩ [⟨0, 0⟩] rfl

/-! ## C8: tapered width floor and closed filled outline -/

/-- C8: in tapered mode (`taper > 0`), the per-point width used to build
the outline equals `lerp(baseWidth * (1 - taper * 0.7), baseWidth,
sin(progress * π))` floored at 0.5, so for every progress in `[0, 1]` and
every positive base width the computed width is at least 0.5; and with at
least two points the generated path is the closed filled outline: `M` at
the first left-offset point, the remaining left side forward as `L`
commands, the whole right side reversed as `L` commands, then `Z`, with
one offset point per input point on each side. -/
theorem C8_tapered_brush (points : List Pt) (b t : ℝ) (h2 : 2 ≤ points.length) (ht : 0 < t) :
    (∀ p b2 : ℝ, 0 ≤ p → p ≤ 1 → 0 < b2 → 0.5 ≤ calculateTaperedWidth p b2 t) ∧
    (∀ i : Nat, calculateTaperedWidth ((i : ℝ) / ((points.length : ℝ) - 1)) b t
      = max (b * (1 - t * 0.7)
          + (b - b * (1 - t * 0.7)) * Real.sin ((i : ℝ) / ((points.length : ℝ) - 1) * Real.pi))
          0.5) ∧
    createTaperedPath points b t =
      PathCmd.moveTo ((leftSidePoints points b t).getD 0 ⟨0, 0⟩)
        :: ((leftSidePoints points b t).drop 1).map PathCmd.lineTo
        ++ ((rightSidePoints points b t).reverse.map PathCmd.lineTo)
        ++ [PathCmd.close] ∧
    (leftSidePoints points b t).length = points.length ∧
    (rightSidePoints points b t).length = points.length := by
  have hne : ¬(t = 0) := ne_of_gt ht
  refine ⟨?_, ?_, ?_, ?_, ?_⟩
  · intro p b2 _ _ _
    unfold calculateTaperedWidth
    rw [if_neg hne]
    exact le_max_right _ _
  · intro i
    unfold calculateTaperedWidth
    rw [if_neg hne]
  · unfold createTaperedPath
    rw [if_neg (by omega)]
  · simp [leftSidePoints]
  · simp [rightSidePoints]

/-- Witness for C8 on the two-point stroke `(0,0) → (10,0)` with base
width 4 and taper 1. -/
theorem C8_tapered_brush_witness :
    createTaperedPath [⟨0, 0⟩, ⟨10, 0⟩] 4 1 =
      PathCmd.moveTo ((leftSidePoints [⟨0, 0⟩, ⟨10, 0⟩] 4 1).getD 0 ⟨0, 0⟩)
        :: ((leftSidePoints [⟨0, 0⟩, ⟨10, 0⟩] 4 1).drop 1).map PathCmd.lineTo
        ++ ((rightSidePoints [⟨0, 0⟩, ⟨10, 0⟩] 4 1).reverse.map PathCmd.lineTo)
        ++ [PathCmd.close] ∧
    (leftSidePoints [⟨0, 0⟩, ⟨10, 0⟩] 4 1).length = ([⟨0, 0⟩, ⟨10, 0⟩] : List Pt).length ∧
    (rightSidePoints [⟨0, 0⟩, ⟨10, 0⟩] 4 1).length = ([⟨0, 0⟩, ⟨10, 0⟩] : List Pt).length :=
  ⟨(C8_tapered_brush [⟨0, 0⟩, ⟨10, 0⟩] 4 1 (by decide) (by norm_num)).2.2.1,
    (C8_tapered_brush [⟨0, 0⟩, ⟨10, 0⟩] 4 1 (by decide) (by norm_num)).2.2.2.1,
    (C8_tapered_brush [⟨0, 0⟩, ⟨10, 0⟩] 4 1 (by decide) (by norm_num)).2.2.2.2⟩

/-! ## C6: shift-constraint resolution (circle intent vs 45-degree snap) -/

/-- C6: for every start and current point, when the circle-intent
condition holds (`min(|dx|,|dy|)/max(|dx|,|dy|) > 0.85` with both
`|dx| > 50` and `|dy| > 50`, or the force-circle modifier is active),
`applyShiftConstraint` returns an endpoint forming a square bounding box
of side `max(|dx|,|dy|)` on the same side as `(dx, dy)` in each axis;
otherwise it returns the point at the original distance from the start
with the direction angle a multiple of 45 degrees within 22.5 degrees of
the original angle (the nearest such multiple under round-half-up). -/
theorem C6_shift_constraint (forceCircle : Bool) (sp cp : Pt) (dx dy : ℝ)
    (hdx : dx = cp.x - sp.x) (hdy : dy = cp.y - sp.y) :
    (((0.85 < min |dx| |dy| / max |dx| |dy| ∧ (50 < |dx| ∧ 50 < |dy|)) ∨ forceCircle = true) →
      |(applyShiftConstraint forceCircle sp cp).x - sp.x| = max |dx| |dy| ∧
      |(applyShiftConstraint forceCircle sp cp).y - sp.y| = max |dx| |dy| ∧
      0 ≤ ((applyShiftConstraint forceCircle sp cp).x - sp.x) * dx ∧
      0 ≤ ((applyShiftConstraint forceCircle sp cp).y - sp.y) * dy) ∧
    (¬((0.85 < min |dx| |dy| / max |dx| |dy| ∧ (50 < |dx| ∧ 50 < |dy|)) ∨ forceCircle = true) →
      jsDist sp (applyShiftConstraint forceCircle sp cp) = jsDist sp cp ∧
      ∃ k : ℤ, (applyShiftConstraint forceCircle sp cp).x
          = sp.x + jsDist sp cp * Real.cos ((k : ℝ) * (Real.pi / 4)) ∧
        (applyShiftConstraint forceCircle sp cp).y
          = sp.y + jsDist sp cp * Real.sin ((k : ℝ) * (Real.pi / 4)) ∧
        |(k : ℝ) * (Real.pi / 4) - jsAtan2 dy dx| ≤ Real.pi / 8) := by
  subst hdx
  subst hdy
  by_cases hc : (0.85 < min |cp.x - sp.x| |cp.y - sp.y| / max |cp.x - sp.x| |cp.y - sp.y|
      ∧ (50 < |cp.x - sp.x| ∧ 50 < |cp.y - sp.y|)) ∨ forceCircle = true
  · have hres : applyShiftConstraint forceCircle sp cp =
        ⟨sp.x + (if 0 < cp.x - sp.x then max |cp.x - sp.x| |cp.y - sp.y|
            else -(max |cp.x - sp.x| |cp.y - sp.y|)),
         sp.y + (if 0 < cp.y - sp.y then max |cp.x - sp.x| |cp.y - sp.y|
            else -(max |cp.x - sp.x| |cp.y - sp.y|))⟩ := by
      unfold applyShiftConstraint
      rw [if_pos hc]
    have hs0 : 0 ≤ max |cp.x - sp.x| |cp.y - sp.y| :=
      le_trans (abs_nonneg _) (le_max_left _ _)
    constructor
    · intro _
      rw [hres]
      dsimp only
      refine ⟨?_, ?_, ?_, ?_⟩
      · by_cases h0 : 0 < cp.x - sp.x
        · rw [if_pos h0, add_sub_cancel_left]
          exact abs_of_nonneg hs0
        · rw [if_neg h0, add_sub_cancel_left, abs_neg]
          exact abs_of_nonneg hs0
      · by_cases h0 : 0 < cp.y - sp.y
        · rw [if_pos h0, add_sub_cancel_left]
          exact abs_of_nonneg hs0
        · rw [if_neg h0, add_sub_cancel_left, abs_neg]
          exact abs_of_nonneg hs0
      · by_cases h0 : 0 < cp.x - sp.x
        · rw [if_pos h0, add_sub_cancel_left]
          exact mul_nonneg hs0 (le_of_lt h0)
        · rw [if_neg h0, add_sub_cancel_left]
          have h1 : cp.x - sp.x ≤ 0 := not_lt.mp h0
          nlinarith
      · by_cases h0 : 0 < cp.y - sp.y
        · rw [if_pos h0, add_sub_cancel_left]
          exact mul_nonneg hs0 (le_of_lt h0)
        · rw [if_neg h0, add_sub_cancel_left]
          have h1 : cp.y - sp.y ≤ 0 := not_lt.mp h0
          nlinarith
    · intro hn
      exact absurd hc hn
  · have hres : applyShiftConstraint forceCircle sp cp =
        ⟨sp.x + Real.sqrt ((cp.x - sp.x) * (cp.x - sp.x) + (cp.y - sp.y) * (cp.y - sp.y))
            * Real.cos ((jsRound (jsAtan2 (cp.y - sp.y) (cp.x - sp.x) / (Real.pi / 4)) : ℝ)
              * (Real.pi / 4)),
         sp.y + Real.sqrt ((cp.x - sp.x) * (cp.x - sp.x) + (cp.y - sp.y) * (cp.y - sp.y))
            * Real.sin ((jsRound (jsAtan2 (cp.y - sp.y) (cp.x - sp.x) / (Real.pi / 4)) : ℝ)
              * (Real.pi / 4))⟩ := by
      unfold applyShiftConstraint
      rw [if_neg hc]
    have hd : Real.sqrt ((cp.x - sp.x) * (cp.x - sp.x) + (cp.y - sp.y) * (cp.y - sp.y))
        = jsDist sp cp := by
      unfold jsDist
      congr 1
      ring
    constructor
    · intro h
      exact absurd h hc
    · intro _
      constructor
      · rw [hres]
        unfold jsDist
        dsimp only
        rw [show (sp.x + Real.sqrt ((cp.x - sp.x) * (cp.x - sp.x) + (cp.y - sp.y) * (cp.y - sp.y))
              * Real.cos ((jsRound (jsAtan2 (cp.y - sp.y) (cp.x - sp.x) / (Real.pi / 4)) : ℝ)
                * (Real.pi / 4)) - sp.x) ^ 2
            + (sp.y + Real.sqrt ((cp.x - sp.x) * (cp.x - sp.x) + (cp.y - sp.y) * (cp.y - sp.y))
              * Real.sin ((jsRound (jsAtan2 (cp.y - sp.y) (cp.x - sp.x) / (Real.pi / 4)) : ℝ)
                * (Real.pi / 4)) - sp.y) ^ 2
            = (Real.sqrt ((cp.x - sp.x) * (cp.x - sp.x) + (cp.y - sp.y) * (cp.y - sp.y))) ^ 2
              * ((Real.cos ((jsRound (jsAtan2 (cp.y - sp.y) (cp.x - sp.x) / (Real.pi / 4)) : ℝ)
                  * (Real.pi / 4))) ^ 2
                + (Real.sin ((jsRound (jsAtan2 (cp.y - sp.y) (cp.x - sp.x) / (Real.pi / 4)) : ℝ)
                  * (Real.pi / 4))) ^ 2) from by ring]
        rw [Real.cos_sq_add_sin_sq, mul_one, Real.sqrt_sq (Real.sqrt_nonneg _)]
        congr 1
        ring
      · refine ⟨jsRound (jsAtan2 (cp.y - sp.y) (cp.x - sp.x) / (Real.pi / 4)), ?_, ?_, ?_⟩
        · rw [hres]
          dsimp only
          rw [hd]
        · rw [hres]
          dsimp only
          rw [hd]
        · have hq : (0:ℝ) < Real.pi / 4 := by positivity
          have h1 : (jsRound (jsAtan2 (cp.y - sp.y) (cp.x - sp.x) / (Real.pi / 4)) : ℝ)
              ≤ jsAtan2 (cp.y - sp.y) (cp.x - sp.x) / (Real.pi / 4) + 1 / 2 := by
            unfold jsRound
            exact_mod_cast Int.floor_le _
          have h2 : jsAtan2 (cp.y - sp.y) (cp.x - sp.x) / (Real.pi / 4) + 1 / 2 - 1
              < (jsRound (jsAtan2 (cp.y - sp.y) (cp.x - sp.x) / (Real.pi / 4)) : ℝ) := by
            unfold jsRound
            exact_mod_cast Int.sub_one_lt_floor _
          have h3 : |(jsRound (jsAtan2 (cp.y - sp.y) (cp.x - sp.x) / (Real.pi / 4)) : ℝ)
              - jsAtan2 (cp.y - sp.y) (cp.x - sp.x) / (Real.pi / 4)| ≤ 1 / 2 :=
            abs_le.mpr ⟨by linarith, by linarith⟩
          have hau : jsAtan2 (cp.y - sp.y) (cp.x - sp.x)
              = jsAtan2 (cp.y - sp.y) (cp.x - sp.x) / (Real.pi / 4) * (Real.pi / 4) :=
            (div_mul_cancel₀ _ (ne_of_gt hq)).symm
          calc |(jsRound (jsAtan2 (cp.y - sp.y) (cp.x - sp.x) / (Real.pi / 4)) : ℝ)
                * (Real.pi / 4) - jsAtan2 (cp.y - sp.y) (cp.x - sp.x)|
              = |(jsRound (jsAtan2 (cp.y - sp.y) (cp.x - sp.x) / (Real.pi / 4)) : ℝ)
                - jsAtan2 (cp.y - sp.y) (cp.x - sp.x) / (Real.pi / 4)| * (Real.pi / 4) := by
                rw [hau]
                rw [← sub_mul, abs_mul, abs_of_pos hq]
                rw [← hau]
            _ ≤ 1 / 2 * (Real.pi / 4) := mul_le_mul_of_nonneg_right h3 (le_of_lt hq)
            _ = Real.pi / 8 := by ring

/-- Witness for C6: start `(0,0)` with raw end `(80,90)` (aspect ratio
`80/90 ≈ 0.89`, both dimensions above 50) takes the square-bounding-box
branch, while raw end `(100,5)` (aspect ratio `0.05`) takes the
45-degree-snap branch. -/
theorem C6_shift_constraint_witness :
    (|(applyShiftConstraint false ⟨0, 0⟩ ⟨80, 90⟩).x - (Pt.mk 0 0).x| = max |(80:ℝ)| |(90:ℝ)| ∧
     |(applyShiftConstraint false ⟨0, 0⟩ ⟨80, 90⟩).y - (Pt.mk 0 0).y| = max |(80:ℝ)| |(90:ℝ)| ∧
     0 ≤ ((applyShiftConstraint false ⟨0, 0⟩ ⟨80, 90⟩).x - (Pt.mk 0 0).x) * 80 ∧
     0 ≤ ((applyShiftConstraint false ⟨0, 0⟩ ⟨80, 90⟩).y - (Pt.mk 0 0).y) * 90) ∧
    (jsDist ⟨0, 0⟩ (applyShiftConstraint false ⟨0, 0⟩ ⟨100, 5⟩) = jsDist ⟨0, 0⟩ ⟨100, 5⟩ ∧
     ∃ k : ℤ, (applyShiftConstraint false ⟨0, 0⟩ ⟨100, 5⟩).x
         = (Pt.mk 0 0).x + jsDist ⟨0, 0⟩ ⟨100, 5⟩ * Real.cos ((k : ℝ) * (Real.pi / 4)) ∧
       (applyShiftConstraint false ⟨0, 0⟩ ⟨100, 5⟩).y
         = (Pt.mk 0 0).y + jsDist ⟨0, 0⟩ ⟨100, 5⟩ * Real.sin ((k : ℝ) * (Real.pi / 4)) ∧
       |(k : ℝ) * (Real.pi / 4) - jsAtan2 5 100| ≤ Real.pi / 8) :=
  ⟨(C6_shift_constraint false ⟨0, 0⟩ ⟨80, 90⟩ 80 90 (by norm_num) (by norm_num)).1 (by norm_num),
   (C6_shift_constraint false ⟨0, 0⟩ ⟨100, 5⟩ 100 5 (by norm_num) (by norm_num)).2 (by norm_num)⟩

end SVGF
